import Mathlib

/-!
Verification development for the pmtiles-demo format-normalization pipeline
(`src/app/main.py`).  The Python source is shallowly embedded: pure helpers
become Lean functions; the subprocess layer, the JSON parser (`json.loads`),
Python float coercion of strings, the unzip result, and the failure behaviour
of the S3/database collaborators are abstracted into an explicit environment
record `Env`; exceptions become `Except` values; the sequence of external
commands started by a run is tracked as an explicit trace.
-/

namespace App

/-! ## Name sanitizer (`safe_name`, main.py lines 90-94) -/

/-- Python `\s` / `str.strip` whitespace, restricted to the ASCII whitespace
characters (the Unicode additions are all outside the sanitizer's allowed
alphabet, so they behave identically for the properties proved here). -/
def isPySpace (c : Char) : Bool :=
  c = ' ' || c = '\t' || c = '\n' || c = '\r' || c = '\x0b' || c = '\x0c'

/-- The character class `[a-zA-Z0-9._-]` of `safe_name`'s keep-filter. -/
def isAllowedChar (c : Char) : Bool :=
  (('a' ≤ c && c ≤ 'z') || ('A' ≤ c && c ≤ 'Z') || ('0' ≤ c && c ≤ '9')
    || c = '.' || c = '_' || c = '-')

/-- Python `str.strip()` on a character list: drop whitespace at both ends. -/
def pyStrip (l : List Char) : List Char :=
  ((l.dropWhile isPySpace).reverse.dropWhile isPySpace).reverse

/-- Model of `re.sub(r"\s+", "-", s)`: each maximal whitespace run becomes one `'-'`.
The boolean flag records whether we are inside a whitespace run. -/
def collapseAux : Bool → List Char → List Char
  | _, [] => []
  | inRun, c :: cs =>
    if isPySpace c then
      if inRun then collapseAux true cs else '-' :: collapseAux true cs
    else c :: collapseAux false cs

def collapseWs (l : List Char) : List Char := collapseAux false l

/-- The cleaned character list of `safe_name` before the emptiness check:
strip, collapse whitespace to hyphens, drop everything outside the allowed
class (main.py lines 91-93). -/
def safe_clean (s : String) : List Char :=
  (collapseWs (pyStrip s.data)).filter isAllowedChar

/-- The sanitizer `safe_name` (main.py lines 90-94): `return s[:120] if s else "bundle"`. -/
def safe_name (s : String) : String :=
  if safe_clean s = [] then "bundle" else String.mk ((safe_clean s).take 120)

/-! ## Path helpers (`pathlib.Path` operations used by the pipeline) -/

/-- Model of `Path a / b` for a relative `b`. -/
def pathJoin (a b : String) : String := a ++ "/" ++ b

/-- Model of `Path.name`: the substring after the last `'/'`. -/
def pyName (p : String) : String :=
  String.mk ((p.data.reverse.takeWhile (fun c => ¬ c = '/')).reverse)

/-- Model of `Path.suffix` of a file name, as CPython computes it:
`i = name.rfind('.'); return name[i:] if 0 < i < len(name)-1 else ""`. -/
def pySuffix (name : String) : String :=
  let cs := name.data
  match cs.reverse.findIdx? (fun c => c = '.') with
  | some j =>
    let k := cs.length - 1 - j
    if 0 < k ∧ k < cs.length - 1 then String.mk (cs.drop k) else ""
  | none => ""

/-- Model of `str.lower()`, character-wise (ASCII model of Python's Unicode lowering;
the extensions compared against are all ASCII). -/
def lowerStr (s : String) : String := String.mk (s.data.map Char.toLower)

/-- The extension `upload_path.suffix.lower()` (main.py line 165). -/
def pyExt (p : String) : String := lowerStr (pySuffix (pyName p))

/-- Model of `s.strip()` on a Lean string. -/
def pyStripStr (s : String) : String := String.mk (pyStrip s.data)

/-- String suffix test at the character level (kernel-reducible form of
`str.endswith` / the `fnmatch` pattern `*.shp`, which matches any name whose
characters end with the pattern's literal tail). -/
def strEndsWith (s tail : String) : Bool :=
  tail.data.isSuffixOf s.data

/-! ## JSON values (the parse result of `json.loads` on the ogrinfo report)

Mutual inductives (instead of a nested `List`) so that all recursion below is
structural and every function reduces inside the kernel. -/

mutual
inductive JVal : Type where
  | nullV : JVal
  | boolV : Bool → JVal
  | numV : Rat → JVal
  | strV : String → JVal
  | arrV : JArr → JVal
  | objV : JObj → JVal
inductive JArr : Type where
  | anil : JArr
  | acons : JVal → JArr → JArr
inductive JObj : Type where
  | onil : JObj
  | ocons : String → JVal → JObj → JObj
end

def JArr.toList : JArr → List JVal
  | .anil => []
  | .acons v rest => v :: rest.toList

def JArr.length : JArr → Nat
  | .anil => 0
  | .acons _ rest => rest.length + 1

/-- Python dict key lookup (`json.loads` objects have unique keys, so
first-match lookup on the association list is faithful). -/
def JObj.lookup : JObj → String → Option JVal
  | .onil, _ => none
  | .ocons k v rest, key => if k = key then some v else rest.lookup key

/-- The test of main.py line 107: the object's own `"extent"` key, when its
value is a 4-element sequence. -/
def extentKey (kvs : JObj) : Option (List JVal) :=
  match kvs.lookup "extent" with
  | some (.arrV xs) => if xs.length = 4 then some xs.toList else none
  | _ => none

/- `find_extent` (main.py lines 105-118): depth-first search for the first
`"extent"` key holding a 4-element sequence; a dict checks its own key before
recursing into all of its values (including the malformed extent value
itself), and lists are searched element by element.  The Python `if r:` test
is `isSome` because every returned value is a non-empty (4-element) list. -/
mutual
def find_extent : JVal → Option (List JVal)
  | .objV kvs =>
    match extentKey kvs with
    | some xs => some xs
    | none => findExtentObj kvs
  | .arrV xs => findExtentArr xs
  | _ => none
def findExtentObj : JObj → Option (List JVal)
  | .onil => none
  | .ocons _ v rest =>
    match find_extent v with
    | some r => some r
    | none => findExtentObj rest
def findExtentArr : JArr → Option (List JVal)
  | .anil => none
  | .acons v rest =>
    match find_extent v with
    | some r => some r
    | none => findExtentArr rest
end

/- Spec-level description (from the spec's words, for the refinement claim
C9): the list, in depth-first order, of every value held under a key
literally named `"extent"` that is a 4-element ordered sequence, a dict's
own key coming before its child values. -/
mutual
def specExtentMatches : JVal → List (List JVal)
  | .objV kvs =>
    (match extentKey kvs with
     | some xs => [xs]
     | none => []) ++ specExtentMatchesObj kvs
  | .arrV xs => specExtentMatchesArr xs
  | _ => []
def specExtentMatchesObj : JObj → List (List JVal)
  | .onil => []
  | .ocons _ v rest => specExtentMatches v ++ specExtentMatchesObj rest
def specExtentMatchesArr : JArr → List (List JVal)
  | .anil => []
  | .acons v rest => specExtentMatches v ++ specExtentMatchesArr rest
end

/-! ## The environment: external processes and collaborators -/

/-- The `subprocess.CompletedProcess` fields the code reads. -/
structure ToolResult where
  returncode : Int
  stdout : String
  stderr : String
deriving DecidableEq

/-- One member produced by unpacking the zip, in the (unspecified) order of
`Path.rglob`: path relative to the extraction directory, and whether it is a
regular file. -/
structure ZipEntry where
  relPath : String
  isFile : Bool
deriving DecidableEq

/-- The world outside the embedded code: subprocess behaviour, the JSON
parser, Python `float` on strings, the unzip contents, and whether each
collaborator call raises. -/
structure Env where
  exec : List String → ToolResult
  jsonParse : String → Option JVal
  strFloat : String → Option Rat
  unzipEntries : List ZipEntry
  s3PutFails : String → Bool
  dbInsertFails : Bool
  rmtreeFails : Bool

/-- Python exceptions reaching the driver. -/
inductive PyErr where
  | runtimeError (cmd : List String) (stdout stderr : String)
  | httpException (code : Nat) (msg : String)
  | otherExc (tag : String)
deriving DecidableEq

/-- A computation result together with the list of external commands started
(in order) while producing it. -/
structure Tr (α : Type) where
  res : Except PyErr α
  trace : List (List String)

def Tr.pure (a : α) : Tr α := ⟨.ok a, []⟩

def Tr.fail (e : PyErr) : Tr α := ⟨.error e, []⟩

def Tr.bind (x : Tr α) (f : α → Tr β) : Tr β :=
  match x with
  | ⟨.error e, t⟩ => ⟨.error e, t⟩
  | ⟨.ok a, t⟩ => ⟨(f a).res, t ++ (f a).trace⟩

@[simp] theorem Tr.bind_ok (a : α) (t : List (List String)) (f : α → Tr β) :
    Tr.bind ⟨.ok a, t⟩ f = ⟨(f a).res, t ++ (f a).trace⟩ := rfl

@[simp] theorem Tr.bind_error (e : PyErr) (t : List (List String)) (f : α → Tr β) :
    Tr.bind ⟨.error e, t⟩ f = ⟨.error e, t⟩ := rfl

/-- Model of `run` (main.py lines 70-80): start the process, and raise `RuntimeError`
carrying the argument list and both captured streams when the exit status is
non-zero.  The command is traced whether or not it succeeded. -/
def run (env : Env) (cmd : List String) : Tr String :=
  let p := env.exec cmd
  if p.returncode ≠ 0 then ⟨.error (.runtimeError cmd p.stdout p.stderr), [cmd]⟩
  else ⟨.ok p.stdout, [cmd]⟩

/-! ## Extent prober (`ogrinfo_bounds`, main.py lines 97-125) -/

def ogrinfoCmd (p : String) : List String := ["ogrinfo", "-so", "-al", "-json", p]

/-- Python `float(x)` on a JSON value: numbers are exact (modelled in `Rat`),
booleans coerce to 0/1, strings go through the numeric-literal parse supplied
by the environment, everything else raises. -/
def pyFloat (env : Env) : JVal → Option Rat
  | .numV q => some q
  | .boolV b => some (if b then 1 else 0)
  | .strV s => env.strFloat s
  | _ => none

/-- Model of `[float(ext[0]), float(ext[1]), float(ext[2]), float(ext[3])]`
(main.py line 122): all four coercions must succeed. -/
def coerce4 (env : Env) (xs : List JVal) : Option (List Rat) :=
  xs.mapM (pyFloat env)

/-- The body of `ogrinfo_bounds` before the `except Exception` handler: every
Python raise-site becomes an `Except.error`.  Raise sites: the non-zero exit
inside `run`, `json.loads` on unparseable output, and `float` on a
non-numeric extent element. -/
def ogrinfoBody (env : Env) (p : String) : Except PyErr (Option (List Rat)) :=
  match (run env (ogrinfoCmd p)).res with
  | .error e => .error e
  | .ok out =>
    match env.jsonParse out with
    | none => .error (.otherExc "json.loads")
    | some j =>
      match find_extent j with
      | some ext =>
        if ext.length = 4 then
          match coerce4 env ext with
          | some fs => .ok (some fs)
          | none => .error (.otherExc "float")
        else .ok none
      | none => .ok none

/-- The value `ogrinfo_bounds` returns: the body's value, with every
exception downgraded to `None` by the `try/except Exception` wrapper. -/
def probe (env : Env) (p : String) : Option (List Rat) :=
  match ogrinfoBody env p with
  | .ok o => o
  | .error _ => none

/-- The prober `ogrinfo_bounds` (main.py lines 97-125): the ogrinfo process always
starts (so it is traced), and the function never raises. -/
def ogrinfo_bounds (env : Env) (p : String) : Tr (Option (List Rat)) :=
  ⟨.ok (probe env p), [ogrinfoCmd p]⟩

/-! ## Conversion stages (main.py lines 128-151) -/

def ogr2ogrCmd (dst src : String) : List String :=
  ["ogr2ogr", "-f", "GeoJSON", "-t_srs", "EPSG:4326", dst, src]

def convert_to_geojson (env : Env) (src dst : String) : Tr Unit :=
  Tr.bind (run env (ogr2ogrCmd dst src)) (fun _ => Tr.pure ())

def tippecanoeCmd (mb layer geojson : String) : List String :=
  ["tippecanoe", "-o", mb, "-l", layer, "-zg", "--drop-densest-as-needed",
   "--extend-zooms-if-still-dropping", geojson]

def tippecanoe_to_mbtiles (env : Env) (geojson mb layer : String) : Tr Unit :=
  Tr.bind (run env (tippecanoeCmd mb layer geojson)) (fun _ => Tr.pure ())

def pmtilesCmd (mb pm : String) : List String := ["pmtiles", "convert", mb, pm]

def mbtiles_to_pmtiles (env : Env) (mb pm : String) : Tr Unit :=
  Tr.bind (run env (pmtilesCmd mb pm)) (fun _ => Tr.pure ())

def unzipCmd (zipPath dir : String) : List String :=
  ["unzip", "-o", zipPath, "-d", dir]

/-! ## `ensure_pmtiles` (main.py lines 154-202) -/

/-- Member selection after unpacking (main.py lines 181-188):
`next(unzip_dir.rglob("*.shp"), None)` matches any member (file or
directory) whose final component ends in `.shp`, in walk order; only when
none exists does the fallback take the first regular file of the walk.
`none` means neither exists. -/
def selectMember (env : Env) : Option String :=
  match (env.unzipEntries.filter (fun e => strEndsWith (pyName e.relPath) ".shp")).head? with
  | some shp => some shp.relPath
  | none => ((env.unzipEntries.filter (fun e => e.isFile)).head?).map (fun e => e.relPath)

def ensure_pmtiles (env : Env) (upload_path bundle_name work : String) :
    Tr (String × Option (List Rat)) :=
  let ext := pyExt upload_path
  if ext = ".pmtiles" then ⟨.ok (upload_path, none), []⟩
  else if ext = ".mbtiles" then
    let pm := pathJoin work (safe_name bundle_name ++ ".pmtiles")
    Tr.bind (mbtiles_to_pmtiles env upload_path pm) (fun _ => Tr.pure (pm, none))
  else
    let unzip_dir := pathJoin work "unzipped"
    Tr.bind
      (if ext = ".zip" then
        Tr.bind (run env (unzipCmd upload_path unzip_dir)) (fun _ =>
          match selectMember env with
          | some rel => Tr.pure (pathJoin unzip_dir rel)
          | none => Tr.fail (.httpException 400 "Zip was empty or contained no files."))
      else Tr.pure upload_path)
      (fun src_for_ogr =>
    Tr.bind (ogrinfo_bounds env src_for_ogr) (fun bounds =>
    Tr.bind
      (if ext = ".geojson" ∨ ext = ".json" then Tr.pure upload_path
       else
        Tr.bind (convert_to_geojson env src_for_ogr (pathJoin work "converted.geojson"))
          (fun _ => Tr.pure (pathJoin work "converted.geojson")))
      (fun geojson =>
    let mb := pathJoin work "out.mbtiles"
    let pm := pathJoin work (safe_name bundle_name ++ ".pmtiles")
    Tr.bind (tippecanoe_to_mbtiles env geojson mb (safe_name bundle_name)) (fun _ =>
    Tr.bind (mbtiles_to_pmtiles env mb pm) (fun _ =>
    Tr.pure (pm, bounds))))))

/-! ## Stage classification -/

/-- The three conversion stages of the spec. -/
inductive Stage where
  | genericToInterchange
  | interchangeToTileDb
  | tileDbToArchive
deriving DecidableEq

/-- Which conversion stage an external command is; `unzip` and `ogrinfo` are
not conversion stages. -/
def stageOf (c : List String) : Option Stage :=
  match c.head? with
  | some h =>
    if h = "ogr2ogr" then some .genericToInterchange
    else if h = "tippecanoe" then some .interchangeToTileDb
    else if h = "pmtiles" then some .tileDbToArchive
    else none
  | none => none

def stagesOf (t : List (List String)) : List Stage := t.filterMap stageOf

/-- The spec's route-to-stage table (section 4.4/4.5), for non-container
extensions. -/
def routeStages (ext : String) : List Stage :=
  if ext = ".pmtiles" then []
  else if ext = ".mbtiles" then [.tileDbToArchive]
  else if ext = ".geojson" ∨ ext = ".json" then
    [.interchangeToTileDb, .tileDbToArchive]
  else [.genericToInterchange, .interchangeToTileDb, .tileDbToArchive]

/-- The output file or directory an external command is asked to create, by
argument position. -/
def declaredOutput (c : List String) : Option String :=
  if c.head? = some "unzip" then c.get? 4
  else if c.head? = some "ogr2ogr" then c.get? 5
  else if c.head? = some "tippecanoe" then c.get? 2
  else if c.head? = some "pmtiles" then c.get? 3
  else none

/-! ## The driver (`create_bundle`, main.py lines 249-299) -/

/-- Externally visible side effects of one `create_bundle` request. -/
inductive Action where
  | writeUpload (path : String)
  | runCmd (c : List String)
  | s3Put (path key : String)
  | dbInsert (bundle_id : String)
  | rmtree (dir : String)
deriving DecidableEq

/-- The JSON body of the success response (the fields computed by the
handler; `pmtiles_url` is `PUBLIC_TILES_BASE ++ "/" ++ pmtiles_key`). -/
structure RespOk where
  bundle_id : String
  name : String
  description : String
  bounds : Option (List Rat)
  source_key : String
  pmtiles_key : String
deriving DecidableEq

/-- How the request terminates at the HTTP boundary: a success body, an
`HTTPException` rendered with its status code (the `RuntimeError` handler on
line 296-297 produces a 400), or an unhandled exception (server fault). -/
inductive HttpResult where
  | ok (r : RespOk)
  | clientError (code : Nat) (e : PyErr)
  | serverError (e : PyErr)
deriving DecidableEq

/-- The `try:` block of `create_bundle` (main.py lines 263-294): save the
upload, put the source object, run the pipeline, put the archive object,
insert the catalog row, build the response.  Collaborator failures
(`boto3`/`sqlite3` exceptions) are injected from the environment; the action
list records what was attempted, in order. -/
def tryBody (env : Env) (work upload_path source_key bundle_id bundle_name
    description : String) : Except PyErr RespOk × List Action :=
  let a1 : List Action := [.writeUpload upload_path]
  if env.s3PutFails source_key then
    (.error (.otherExc "s3.upload_file"), a1 ++ [.s3Put upload_path source_key])
  else
    let a2 := a1 ++ [Action.s3Put upload_path source_key]
    let t := ensure_pmtiles env upload_path bundle_name work
    let a3 := a2 ++ t.trace.map Action.runCmd
    match t.res with
    | .error e => (.error e, a3)
    | .ok (pmtiles_path, bounds) =>
      let pmtiles_key := "pmtiles/" ++ bundle_id ++ "/" ++ safe_name bundle_name ++ ".pmtiles"
      if env.s3PutFails pmtiles_key then
        (.error (.otherExc "s3.upload_file"), a3 ++ [.s3Put pmtiles_path pmtiles_key])
      else
        let a4 := a3 ++ [Action.s3Put pmtiles_path pmtiles_key]
        if env.dbInsertFails then
          (.error (.otherExc "sqlite3"), a4 ++ [.dbInsert bundle_id])
        else
          (.ok ⟨bundle_id, bundle_name, description, bounds, source_key, pmtiles_key⟩,
           a4 ++ [.dbInsert bundle_id])

/-- The driver `create_bundle` (main.py lines 249-299).  `bundle_name = name.strip() or
"bundle"`; the upload is saved as `work / safe_name(filename)`; the
`except RuntimeError` clause downgrades pipeline failures to a 400 response;
a raised `HTTPException` keeps its own status code; anything else is a server
fault.  The `finally:` clause appends the `rmtree` of the working scope
unconditionally, and `ignore_errors=True` means the removal's own failure
(`env.rmtreeFails`) is never consulted. -/
def create_bundle (env : Env) (workdir bundle_id name description filename : String) :
    HttpResult × List Action :=
  let bundle_name := if pyStripStr name = "" then "bundle" else pyStripStr name
  let original_filename := safe_name filename
  let work := pathJoin workdir bundle_id
  let upload_path := pathJoin work original_filename
  let source_key := "sources/" ++ bundle_id ++ "/" ++ original_filename
  let body := tryBody env work upload_path source_key bundle_id bundle_name description
  let result :=
    match body.1 with
    | .ok r => HttpResult.ok r
    | .error (.runtimeError c o e) => .clientError 400 (.runtimeError c o e)
    | .error (.httpException code m) => .clientError code (.httpException code m)
    | .error e => .serverError e
  (result, body.2 ++ [.rmtree work])

/-- An `Env` with the rmtree-failure flag replaced (for stating that the
response never depends on it). -/
def setRmtree (e : Env) (b : Bool) : Env :=
  Env.mk e.exec e.jsonParse e.strFloat e.unzipEntries e.s3PutFails e.dbInsertFails b

/-! ## Lemmas about the sanitizer -/

theorem isPySpace_of_allowed {c : Char} (h : isAllowedChar c = true) :
    isPySpace c = false := by
  cases hsp : isPySpace c with
  | false => rfl
  | true =>
    exfalso
    simp only [isPySpace, Bool.or_eq_true, decide_eq_true_eq] at hsp
    rcases hsp with (((((h1 | h1) | h1) | h1) | h1) | h1) <;> subst h1 <;> simp [isAllowedChar] at h

theorem dropWhile_eq_self_of {p : Char → Bool} {l : List Char}
    (h : ∀ c ∈ l, p c = false) : l.dropWhile p = l := by
  cases l with
  | nil => rfl
  | cons a as => simp [List.dropWhile_cons, h a (by simp)]

theorem pyStrip_of_no_space {l : List Char} (h : ∀ c ∈ l, isPySpace c = false) :
    pyStrip l = l := by
  unfold pyStrip
  rw [dropWhile_eq_self_of h, dropWhile_eq_self_of (fun c hc => h c (List.mem_reverse.mp hc)),
    List.reverse_reverse]

theorem collapseAux_of_no_space {l : List Char} (b : Bool)
    (h : ∀ c ∈ l, isPySpace c = false) : collapseAux b l = l := by
  induction l generalizing b with
  | nil => rfl
  | cons a as ih =>
    simp only [collapseAux, h a (by simp), if_false, Bool.false_eq_true]
    rw [ih false (fun c hc => h c (by simp [hc]))]

theorem mem_safe_clean_allowed {s : String} {c : Char} (h : c ∈ safe_clean s) :
    isAllowedChar c = true := (List.mem_filter.mp h).2

theorem safe_clean_of_allowed {l : List Char} (h : ∀ c ∈ l, isAllowedChar c = true) :
    safe_clean (String.mk l) = l := by
  have hns : ∀ c ∈ l, isPySpace c = false := fun c hc => isPySpace_of_allowed (h c hc)
  unfold safe_clean collapseWs
  show (collapseAux false (pyStrip l)).filter isAllowedChar = l
  rw [pyStrip_of_no_space hns, collapseAux_of_no_space false hns, List.filter_eq_self.mpr h]

/-- C7: `safe_name` is a pure total function: for every input string the
output is non-empty, at most 120 characters, drawn from `[A-Za-z0-9._-]`;
the literal token `"bundle"` is returned when the cleaned result is empty;
and the function is idempotent. -/
theorem C7_safe_name_total_and_idempotent (s : String) :
    (1 ≤ (safe_name s).data.length ∧ (safe_name s).data.length ≤ 120
      ∧ ∀ c ∈ (safe_name s).data, isAllowedChar c = true)
    ∧ (safe_clean s = [] → safe_name s = "bundle")
    ∧ safe_name (safe_name s) = safe_name s := by
  by_cases h : safe_clean s = []
  · have hb : safe_name s = "bundle" := by simp [safe_name, h]
    refine ⟨?_, fun _ => hb, ?_⟩
    · rw [hb]; exact ⟨by decide, by decide, by decide⟩
    · rw [hb]; decide
  · have hval : safe_name s = String.mk ((safe_clean s).take 120) := by
      simp [safe_name, h]
    have hdata : (safe_name s).data = (safe_clean s).take 120 := by rw [hval]
    have hallow : ∀ c ∈ (safe_name s).data, isAllowedChar c = true := by
      intro c hc
      rw [hdata] at hc
      exact mem_safe_clean_allowed (List.take_subset 120 _ hc)
    refine ⟨⟨?_, ?_, hallow⟩, fun h' => absurd h' h, ?_⟩
    · have : (safe_name s).data ≠ [] := by
        rw [hdata]
        simp [List.take_eq_nil_iff, h]
      exact List.length_pos.mpr this
    · rw [hdata, List.length_take]
      exact min_le_left _ _
    · have hclean : safe_clean (safe_name s) = (safe_name s).data := by
        conv_lhs => rw [hval]
        rw [safe_clean_of_allowed
          (fun c hc => mem_safe_clean_allowed (List.take_subset 120 _ hc))]
        exact hdata.symm
      have hne : safe_clean (safe_name s) ≠ [] := by
        rw [hclean, hdata]
        simp [List.take_eq_nil_iff, h]
      rw [safe_name, if_neg hne, hclean, hdata, List.take_take, min_self]
      exact hval.symm

/-- Witness for C7 at concrete inputs: `"@@@"` cleans to the empty list and
is sent to `"bundle"`. -/
theorem C7_witness : safe_clean "@@@" = [] ∧ safe_name "@@@" = "bundle" :=
  ⟨by decide, (C7_safe_name_total_and_idempotent "@@@").2.1 (by decide)⟩

/-- C4: for every dataset path and every behaviour of the introspection tool
(non-zero exit, unparseable output, no extent found, non-numeric extent
elements) the prober returns without raising — its result is always `.ok` —
and each failure mode yields absent bounds; consequently a geojson-route
pipeline run completes to its normal result whatever the probe did. -/
theorem C4_prober_never_raises (env : Env) (p : String) :
    ((ogrinfo_bounds env p).res = Except.ok (probe env p)
      ∧ (ogrinfo_bounds env p).trace = [ogrinfoCmd p])
    ∧ ((env.exec (ogrinfoCmd p)).returncode ≠ 0 → probe env p = none)
    ∧ (env.jsonParse (env.exec (ogrinfoCmd p)).stdout = none → probe env p = none)
    ∧ (∀ j, env.jsonParse (env.exec (ogrinfoCmd p)).stdout = some j →
        find_extent j = none → probe env p = none)
    ∧ (∀ j ext, env.jsonParse (env.exec (ogrinfoCmd p)).stdout = some j →
        find_extent j = some ext → coerce4 env ext = none → probe env p = none)
    ∧ (∀ nm wk, pyExt p = ".geojson" →
        (∀ c : List String, c.head? ≠ some "ogrinfo" → (env.exec c).returncode = 0) →
        (ensure_pmtiles env p nm wk).res
          = Except.ok (pathJoin wk (safe_name nm ++ ".pmtiles"), probe env p)) := by
  refine ⟨⟨rfl, rfl⟩, ?_, ?_, ?_, ?_, ?_⟩
  · intro h
    simp [probe, ogrinfoBody, run, h]
  · intro h
    by_cases hrc : (env.exec (ogrinfoCmd p)).returncode = 0
    · simp [probe, ogrinfoBody, run, hrc, h]
    · simp [probe, ogrinfoBody, run, hrc]
  · intro j hj hfe
    by_cases hrc : (env.exec (ogrinfoCmd p)).returncode = 0
    · simp [probe, ogrinfoBody, run, hrc, hj, hfe]
    · simp [probe, ogrinfoBody, run, hrc]
  · intro j ext hj hfe hc
    by_cases hrc : (env.exec (ogrinfoCmd p)).returncode = 0
    · by_cases hlen : ext.length = 4
      · simp [probe, ogrinfoBody, run, hrc, hj, hfe, hlen, hc]
      · simp [probe, ogrinfoBody, run, hrc, hj, hfe, hlen]
    · simp [probe, ogrinfoBody, run, hrc]
  · intro nm wk hext hok
    have ht : (env.exec (tippecanoeCmd (pathJoin wk "out.mbtiles") (safe_name nm) p)).returncode = 0 :=
      hok _ (by simp [tippecanoeCmd])
    have hpm : (env.exec (pmtilesCmd (pathJoin wk "out.mbtiles")
        (pathJoin wk (safe_name nm ++ ".pmtiles")))).returncode = 0 :=
      hok _ (by simp [pmtilesCmd])
    simp [ensure_pmtiles, hext, ogrinfo_bounds, tippecanoe_to_mbtiles, mbtiles_to_pmtiles,
      run, ht, hpm, Tr.pure, Tr.bind]

/-- Witness for C4: a tool that exits 1 yields absent bounds, and with it a
geojson run still completes. -/
theorem C4_witness :
    ((Env.mk (fun _ => ⟨1, "boom", "err"⟩) (fun _ => none) (fun _ => none) []
        (fun _ => false) false false).exec
          (ogrinfoCmd "d.geojson")).returncode ≠ 0
    ∧ probe (Env.mk (fun _ => ⟨1, "boom", "err"⟩) (fun _ => none) (fun _ => none) []
        (fun _ => false) false false) "d.geojson" = none :=
  ⟨by decide,
    (C4_prober_never_raises
      (Env.mk (fun _ => ⟨1, "boom", "err"⟩) (fun _ => none) (fun _ => none) []
        (fun _ => false) false false) "d.geojson").2.1 (by decide)⟩

/-- C1: for every non-container upload the route — and with it the exact
ordered sequence of conversion stages started — is a function of the
lower-cased extension alone: `.pmtiles` runs nothing, probes nothing and
returns the input path unchanged with absent bounds; `.mbtiles` runs exactly
TileDatabase→Archive; `.geojson`/`.json` run Interchange→TileDatabase then
TileDatabase→Archive; any other non-zip extension runs all three stages in
order.  File content does not appear anywhere in the decision. -/
theorem C1_route_from_extension (env : Env) (up nm wk : String)
    (hok : ∀ c : List String, (env.exec c).returncode = 0)
    (hnz : pyExt up ≠ ".zip") :
    stagesOf (ensure_pmtiles env up nm wk).trace = routeStages (pyExt up)
    ∧ (pyExt up = ".pmtiles" →
        ensure_pmtiles env up nm wk = ⟨Except.ok (up, none), []⟩) := by
  by_cases h1 : pyExt up = ".pmtiles"
  · constructor
    · simp [ensure_pmtiles, h1, routeStages, stagesOf]
    · intro _
      simp [ensure_pmtiles, h1]
  · by_cases h2 : pyExt up = ".mbtiles"
    · refine ⟨?_, fun h => absurd h h1⟩
      simp [ensure_pmtiles, h1, h2, routeStages, stagesOf, stageOf,
        mbtiles_to_pmtiles, pmtilesCmd, run, hok, Tr.bind, Tr.pure]
    · by_cases h3 : pyExt up = ".geojson"
      · refine ⟨?_, fun h => absurd h h1⟩
        simp [ensure_pmtiles, h1, h2, h3, routeStages, stagesOf, stageOf,
          ogrinfo_bounds, ogrinfoCmd, tippecanoe_to_mbtiles, tippecanoeCmd,
          mbtiles_to_pmtiles, pmtilesCmd, run, hok, Tr.bind, Tr.pure]
      · by_cases h4 : pyExt up = ".json"
        · refine ⟨?_, fun h => absurd h h1⟩
          simp [ensure_pmtiles, h1, h2, h3, h4, routeStages, stagesOf, stageOf,
            ogrinfo_bounds, ogrinfoCmd, tippecanoe_to_mbtiles, tippecanoeCmd,
            mbtiles_to_pmtiles, pmtilesCmd, run, hok, Tr.bind, Tr.pure]
        · refine ⟨?_, fun h => absurd h h1⟩
          simp [ensure_pmtiles, h1, h2, h3, h4, hnz, routeStages, stagesOf, stageOf,
            ogrinfo_bounds, ogrinfoCmd, convert_to_geojson, ogr2ogrCmd,
            tippecanoe_to_mbtiles, tippecanoeCmd,
            mbtiles_to_pmtiles, pmtilesCmd, run, hok, Tr.bind, Tr.pure]

/-- Witness for C1: with an always-succeeding toolchain, an upload named
`data.CSV` (unknown extension) runs the full three-stage sequence, and one
named `a.PMTILES` passes straight through. -/
theorem C1_witness :
    (∀ c : List String, ((Env.mk (fun _ => ⟨0, "", ""⟩) (fun _ => none)
        (fun _ => none) [] (fun _ => false) false false).exec c).returncode = 0)
    ∧ pyExt "data.CSV" ≠ ".zip"
    ∧ stagesOf (ensure_pmtiles (Env.mk (fun _ => ⟨0, "", ""⟩) (fun _ => none)
        (fun _ => none) [] (fun _ => false) false false) "data.CSV" "n" "w").trace
      = routeStages (pyExt "data.CSV") :=
  ⟨fun _ => rfl, by decide,
    (C1_route_from_extension
      (Env.mk (fun _ => ⟨0, "", ""⟩) (fun _ => none) (fun _ => none) []
        (fun _ => false) false false) "data.CSV" "n" "w"
      (fun _ => rfl) (by decide)).1⟩

theorem Tr.bind_res_ok {α β : Type} {x : Tr α} {f : α → Tr β} {v : β}
    (h : (Tr.bind x f).res = Except.ok v) :
    ∃ a, x.res = Except.ok a ∧ (f a).res = Except.ok v := by
  rcases x with ⟨r, t⟩
  cases r with
  | error e => simp [Tr.bind] at h
  | ok a => exact ⟨a, rfl, by simpa [Tr.bind] using h⟩

/-- C5: bounds extraction is attempted exactly on the interchange and
generic routes, against the selected zip member for a container and the raw
upload otherwise; the pass-through and tile-database routes never start the
introspection tool and always return absent bounds. -/
theorem C5_bounds_attempted_exactly_for_ogr_routes (env : Env) (up nm wk : String) :
    (pyExt up = ".pmtiles" →
      (ensure_pmtiles env up nm wk).trace = []
      ∧ (ensure_pmtiles env up nm wk).res = Except.ok (up, none))
    ∧ (pyExt up = ".mbtiles" →
      (∀ q, ogrinfoCmd q ∉ (ensure_pmtiles env up nm wk).trace)
      ∧ ∀ p b, (ensure_pmtiles env up nm wk).res = Except.ok (p, b) → b = none)
    ∧ (pyExt up ≠ ".pmtiles" → pyExt up ≠ ".mbtiles" → pyExt up ≠ ".zip" →
      ogrinfoCmd up ∈ (ensure_pmtiles env up nm wk).trace
      ∧ ∀ p b, (ensure_pmtiles env up nm wk).res = Except.ok (p, b) →
          b = probe env up)
    ∧ (pyExt up = ".zip" →
      (env.exec (unzipCmd up (pathJoin wk "unzipped"))).returncode = 0 →
      ∀ rel, selectMember env = some rel →
        ogrinfoCmd (pathJoin (pathJoin wk "unzipped") rel)
            ∈ (ensure_pmtiles env up nm wk).trace
        ∧ ∀ p b, (ensure_pmtiles env up nm wk).res = Except.ok (p, b) →
            b = probe env (pathJoin (pathJoin wk "unzipped") rel)) := by
  refine ⟨?_, ?_, ?_, ?_⟩
  · intro h1
    constructor <;> simp [ensure_pmtiles, h1]
  · intro h2
    have h1 : pyExt up ≠ ".pmtiles" := by rw [h2]; decide
    constructor
    · intro q
      by_cases hrc : (env.exec (pmtilesCmd up (pathJoin wk (safe_name nm ++ ".pmtiles")))).returncode = 0 <;>
      · simp only [pmtilesCmd] at hrc
        simp [ensure_pmtiles, h1, h2, mbtiles_to_pmtiles, run, hrc, Tr.bind, Tr.pure,
          ogrinfoCmd, pmtilesCmd]
    · intro p b hres
      simp only [ensure_pmtiles, h1, h2, if_false, if_true, reduceIte,
        mbtiles_to_pmtiles] at hres
      rcases Tr.bind_res_ok hres with ⟨a, _, hres2⟩
      simp [Tr.pure] at hres2
      exact hres2.2.symm
  · intro h1 h2 hz
    by_cases h3 : pyExt up = ".geojson"
    · constructor
      · simp [ensure_pmtiles, h1, h2, hz, h3, ogrinfo_bounds, Tr.bind, Tr.pure]
      · intro p b hres
        simp [ensure_pmtiles, h1, h2, hz, h3, ogrinfo_bounds, Tr.pure] at hres
        rcases Tr.bind_res_ok hres with ⟨a, _, hr2⟩
        rcases Tr.bind_res_ok hr2 with ⟨a2, _, hr3⟩
        simp [Tr.pure] at hr3
        exact hr3.2.symm
    · by_cases h4 : pyExt up = ".json"
      · constructor
        · simp [ensure_pmtiles, h1, h2, hz, h3, h4, ogrinfo_bounds, Tr.bind, Tr.pure]
        · intro p b hres
          simp [ensure_pmtiles, h1, h2, hz, h3, h4, ogrinfo_bounds, Tr.pure] at hres
          rcases Tr.bind_res_ok hres with ⟨a, _, hr2⟩
          rcases Tr.bind_res_ok hr2 with ⟨a2, _, hr3⟩
          simp [Tr.pure] at hr3
          exact hr3.2.symm
      · constructor
        · simp [ensure_pmtiles, h1, h2, hz, h3, h4, ogrinfo_bounds, Tr.bind, Tr.pure]
        · intro p b hres
          simp [ensure_pmtiles, h1, h2, hz, h3, h4, ogrinfo_bounds, Tr.pure,
            convert_to_geojson] at hres
          rcases Tr.bind_res_ok hres with ⟨a, _, hr2⟩
          rcases Tr.bind_res_ok hr2 with ⟨a2, _, hr3⟩
          rcases Tr.bind_res_ok hr3 with ⟨a3, _, hr4⟩
          simp [Tr.pure] at hr4
          exact hr4.2.symm
  · intro hzip hrc rel hsel
    have h1 : pyExt up ≠ ".pmtiles" := by rw [hzip]; decide
    have h2 : pyExt up ≠ ".mbtiles" := by rw [hzip]; decide
    have h3 : pyExt up ≠ ".geojson" := by rw [hzip]; decide
    have h4 : pyExt up ≠ ".json" := by rw [hzip]; decide
    constructor
    · simp only [unzipCmd] at hrc
      simp [ensure_pmtiles, h1, h2, hzip, run, hrc, hsel, ogrinfo_bounds,
        Tr.bind, Tr.pure, unzipCmd]
    · intro p b hres
      simp only [unzipCmd] at hrc
      simp [ensure_pmtiles, h1, h2, h3, h4, hzip, run, hrc, hsel, ogrinfo_bounds,
        Tr.pure, convert_to_geojson, unzipCmd] at hres
      rcases Tr.bind_res_ok hres with ⟨a, _, hr2⟩
      rcases Tr.bind_res_ok hr2 with ⟨a2, _, hr3⟩
      rcases Tr.bind_res_ok hr3 with ⟨a3, _, hr4⟩
      simp [Tr.pure] at hr4
      exact hr4.2.symm

theorem head?_append_or {α : Type} (l m : List α) :
    (l ++ m).head? = match l.head? with
      | some a => some a
      | none => m.head? := by
  cases l <;> rfl

theorem JArr.length_toList : ∀ a : JArr, a.toList.length = a.length
  | .anil => rfl
  | .acons v rest => by simp [JArr.toList, JArr.length, JArr.length_toList rest]

theorem extentKey_some_len {kvs : JObj} {xs : List JVal}
    (h : extentKey kvs = some xs) : xs.length = 4 := by
  unfold extentKey at h
  rcases hl : kvs.lookup "extent" with _ | v
  · rw [hl] at h; cases h
  · rw [hl] at h
    cases v with
    | arrV a =>
      by_cases h4 : a.length = 4
      · simp [h4] at h
        rw [← h, JArr.length_toList, h4]
      · simp [h4] at h
    | nullV => cases h
    | boolV b => cases h
    | numV q => cases h
    | strV s => cases h
    | objV o => cases h

mutual
theorem find_extent_eq_matches : ∀ v : JVal, find_extent v = (specExtentMatches v).head?
  | .nullV => rfl
  | .boolV _ => rfl
  | .numV _ => rfl
  | .strV _ => rfl
  | .arrV xs => findExtentArr_eq_matches xs
  | .objV kvs => by
    cases hek : extentKey kvs with
    | some xs => simp [find_extent, specExtentMatches, hek]
    | none =>
      simp [find_extent, specExtentMatches, hek, findExtentObj_eq_matches kvs]
theorem findExtentObj_eq_matches :
    ∀ kvs : JObj, findExtentObj kvs = (specExtentMatchesObj kvs).head?
  | .onil => rfl
  | .ocons _ v rest => by
    cases hm : (specExtentMatches v).head? with
    | some r =>
      have h1 : find_extent v = some r := by rw [find_extent_eq_matches v, hm]
      simp [findExtentObj, specExtentMatchesObj, h1, head?_append_or, hm]
    | none =>
      have h1 : find_extent v = none := by rw [find_extent_eq_matches v, hm]
      simp [findExtentObj, specExtentMatchesObj, h1, head?_append_or, hm,
        findExtentObj_eq_matches rest]
theorem findExtentArr_eq_matches :
    ∀ xs : JArr, findExtentArr xs = (specExtentMatchesArr xs).head?
  | .anil => rfl
  | .acons v rest => by
    cases hm : (specExtentMatches v).head? with
    | some r =>
      have h1 : find_extent v = some r := by rw [find_extent_eq_matches v, hm]
      simp [findExtentArr, specExtentMatchesArr, h1, head?_append_or, hm]
    | none =>
      have h1 : find_extent v = none := by rw [find_extent_eq_matches v, hm]
      simp [findExtentArr, specExtentMatchesArr, h1, head?_append_or, hm,
        findExtentArr_eq_matches rest]
end

mutual
theorem find_extent_len :
    ∀ (v : JVal) (l : List JVal), find_extent v = some l → l.length = 4
  | .nullV, _, h => by cases h
  | .boolV _, _, h => by cases h
  | .numV _, _, h => by cases h
  | .strV _, _, h => by cases h
  | .arrV xs, l, h => findExtentArr_len xs l h
  | .objV kvs, l, h => by
    rcases hek : extentKey kvs with _ | xs
    · rw [find_extent, hek] at h
      exact findExtentObj_len kvs l h
    · rw [find_extent, hek] at h
      cases h
      exact extentKey_some_len hek
theorem findExtentObj_len :
    ∀ (kvs : JObj) (l : List JVal), findExtentObj kvs = some l → l.length = 4
  | .ocons _ v rest, l, h => by
    rcases hv : find_extent v with _ | r
    · rw [findExtentObj, hv] at h
      exact findExtentObj_len rest l h
    · rw [findExtentObj, hv] at h
      cases h
      exact find_extent_len v l hv
theorem findExtentArr_len :
    ∀ (xs : JArr) (l : List JVal), findExtentArr xs = some l → l.length = 4
  | .acons v rest, l, h => by
    rcases hv : find_extent v with _ | r
    · rw [findExtentArr, hv] at h
      exact findExtentArr_len rest l h
    · rw [findExtentArr, hv] at h
      cases h
      exact find_extent_len v l hv
end

/-- C9: when the introspection report parses, the prober's result is the
first value found by recursive depth-first search under a key literally
named `"extent"` whose value is a 4-element sequence — a dict's own
`"extent"` key checked before its child values are recursed into (that is
the order in which `specExtentMatches` enumerates) — with the four elements
coerced in order through Python `float`. -/
theorem C9_probe_is_first_dfs_extent :
    (∀ v : JVal, find_extent v = (specExtentMatches v).head?)
    ∧ ∀ (env : Env) (p : String) (j : JVal),
        (env.exec (ogrinfoCmd p)).returncode = 0 →
        env.jsonParse (env.exec (ogrinfoCmd p)).stdout = some j →
        probe env p = match (specExtentMatches j).head? with
          | some xs => coerce4 env xs
          | none => none := by
  refine ⟨find_extent_eq_matches, ?_⟩
  intro env p j hrc hj
  have hfe := find_extent_eq_matches j
  rcases hm : (specExtentMatches j).head? with _ | xs
  · rw [hm] at hfe
    simp [probe, ogrinfoBody, run, hrc, hj, hfe]
  · rw [hm] at hfe
    have hlen : xs.length = 4 := find_extent_len j xs hfe
    rcases hco : coerce4 env xs with _ | fs <;>
      simp [probe, ogrinfoBody, run, hrc, hj, hfe, hlen, hco]

/-- Concrete introspection report for the C9 witness: the extent sits nested
under a list inside the report. -/
def jC9 : JVal :=
  JVal.objV (.ocons "layers"
    (.arrV (.acons (.objV (.ocons "extent"
      (.arrV (.acons (.numV 1) (.acons (.numV 2) (.acons (.numV 5)
        (.acons (.numV 7) .anil)))))
      .onil)) .anil))
    .onil)

def envC9 : Env :=
  Env.mk (fun _ => ⟨0, "report", ""⟩) (fun _ => some jC9) (fun _ => none) []
    (fun _ => false) false false

/-- Witness for C9 at a concrete nested report. -/
theorem C9_witness :
    (envC9.exec (ogrinfoCmd "d.gpkg")).returncode = 0
    ∧ envC9.jsonParse (envC9.exec (ogrinfoCmd "d.gpkg")).stdout = some jC9
    ∧ probe envC9 "d.gpkg" = (match (specExtentMatches jC9).head? with
        | some xs => coerce4 envC9 xs
        | none => none)
    ∧ probe envC9 "d.gpkg" = some [1, 2, 5, 7] :=
  ⟨rfl, rfl, C9_probe_is_first_dfs_extent.2 envC9 "d.gpkg" jC9 rfl rfl, rfl⟩

/-! ## C2: zip route is not re-derived from the member -/

def envC2 : Env :=
  Env.mk (fun _ => ⟨0, "", ""⟩) (fun _ => none) (fun _ => none)
    [⟨"m.geojson", true⟩] (fun _ => false) false false

/-- Counterexample to C2 as stated: a `.zip` whose selected member is a
`.geojson` file still runs the Generic→Interchange stage (on the member);
the route is not re-derived from the member's extension, so the claimed
FromInterchange sequence does not happen. -/
theorem C2_counterexample :
    pyExt "u.zip" = ".zip"
    ∧ envC2.unzipEntries = [⟨"m.geojson", true⟩]
    ∧ pyExt (pathJoin (pathJoin "w" "unzipped") "m.geojson") = ".geojson"
    ∧ stagesOf (ensure_pmtiles envC2 "u.zip" "n" "w").trace
        = [.genericToInterchange, .interchangeToTileDb, .tileDbToArchive]
    ∧ Stage.genericToInterchange ∈ stagesOf (ensure_pmtiles envC2 "u.zip" "n" "w").trace :=
  ⟨by decide, rfl, by decide, by decide, by decide⟩

/-- C2 amended: for every `.zip` upload the route is never re-derived from
the selected member's extension — whatever the member is, the full
FromGenericOgr stage sequence runs, with the Generic→Interchange stage
applied to the selected member. -/
theorem C2_amended_zip_always_generic (env : Env) (up nm wk : String)
    (hz : pyExt up = ".zip")
    (hok : ∀ c : List String, (env.exec c).returncode = 0)
    (rel : String) (hsel : selectMember env = some rel) :
    stagesOf (ensure_pmtiles env up nm wk).trace
      = [.genericToInterchange, .interchangeToTileDb, .tileDbToArchive]
    ∧ ogr2ogrCmd (pathJoin wk "converted.geojson")
        (pathJoin (pathJoin wk "unzipped") rel)
      ∈ (ensure_pmtiles env up nm wk).trace := by
  have h1 : pyExt up ≠ ".pmtiles" := by rw [hz]; decide
  have h2 : pyExt up ≠ ".mbtiles" := by rw [hz]; decide
  have h3 : pyExt up ≠ ".geojson" := by rw [hz]; decide
  have h4 : pyExt up ≠ ".json" := by rw [hz]; decide
  constructor <;>
    simp [ensure_pmtiles, h1, h2, h3, h4, hz, run, hok, hsel, ogrinfo_bounds,
      convert_to_geojson, ogr2ogrCmd, tippecanoe_to_mbtiles, tippecanoeCmd,
      mbtiles_to_pmtiles, pmtilesCmd, unzipCmd, ogrinfoCmd, stagesOf, stageOf,
      Tr.bind, Tr.pure]

/-- Witness for the amended C2 at the concrete geojson-member zip. -/
theorem C2_witness :
    pyExt "u.zip" = ".zip"
    ∧ (∀ c : List String, (envC2.exec c).returncode = 0)
    ∧ selectMember envC2 = some "m.geojson"
    ∧ stagesOf (ensure_pmtiles envC2 "u.zip" "n" "w").trace
        = [.genericToInterchange, .interchangeToTileDb, .tileDbToArchive] :=
  ⟨by decide, fun _ => rfl, rfl,
    (C2_amended_zip_always_generic envC2 "u.zip" "n" "w" (by decide) (fun _ => rfl)
      "m.geojson" rfl).1⟩

/-! ## C8: member selection and the empty-container error -/

def envC8 : Env :=
  Env.mk (fun _ => ⟨0, "", ""⟩) (fun _ => none) (fun _ => none)
    [⟨"d.shp", false⟩] (fun _ => false) false false

/-- Counterexample to C8 as stated: a zip containing no regular file at all
— only a directory whose name ends in `.shp` — does not fail: the directory
is selected (the `rglob("*.shp")` probe has no regular-file check) and the
run completes. -/
theorem C8_counterexample :
    (∀ e ∈ envC8.unzipEntries, e.isFile = false)
    ∧ pyExt "u.zip" = ".zip"
    ∧ (ensure_pmtiles envC8 "u.zip" "n" "w").res
        = Except.ok (pathJoin "w" "n.pmtiles", none) :=
  ⟨by decide, by decide, rfl⟩

/-- C8 amended: selection prefers the first member — regular file or
directory — whose name ends in `.shp`; only when no such member exists is
the first regular file of the walk taken; and the 400 `InputError` is
raised exactly when the container has neither a `.shp`-named member nor any
regular file. -/
theorem C8_amended_member_selection (env : Env) (up nm wk : String)
    (hz : pyExt up = ".zip")
    (hrc : (env.exec (unzipCmd up (pathJoin wk "unzipped"))).returncode = 0) :
    (∀ m, (env.unzipEntries.filter
        (fun e => strEndsWith (pyName e.relPath) ".shp")).head? = some m →
      ogrinfoCmd (pathJoin (pathJoin wk "unzipped") m.relPath)
        ∈ (ensure_pmtiles env up nm wk).trace)
    ∧ ((env.unzipEntries.filter
        (fun e => strEndsWith (pyName e.relPath) ".shp")).head? = none →
       ∀ f, (env.unzipEntries.filter (fun e => e.isFile)).head? = some f →
        ogrinfoCmd (pathJoin (pathJoin wk "unzipped") f.relPath)
          ∈ (ensure_pmtiles env up nm wk).trace)
    ∧ ((env.unzipEntries.filter
        (fun e => strEndsWith (pyName e.relPath) ".shp")).head? = none →
       (env.unzipEntries.filter (fun e => e.isFile)).head? = none →
       (ensure_pmtiles env up nm wk).res
         = Except.error (.httpException 400 "Zip was empty or contained no files.")) := by
  have h1 : pyExt up ≠ ".pmtiles" := by rw [hz]; decide
  have h2 : pyExt up ≠ ".mbtiles" := by rw [hz]; decide
  simp only [unzipCmd] at hrc
  refine ⟨?_, ?_, ?_⟩
  · intro m hm
    simp [ensure_pmtiles, h1, h2, hz, run, hrc, selectMember, hm,
      ogrinfo_bounds, unzipCmd, Tr.bind, Tr.pure]
  · intro hnoshp f hf
    simp [ensure_pmtiles, h1, h2, hz, run, hrc, selectMember, hnoshp, hf,
      ogrinfo_bounds, unzipCmd, Tr.bind, Tr.pure]
  · intro hnoshp hnofile
    simp [ensure_pmtiles, h1, h2, hz, run, hrc, selectMember, hnoshp, hnofile,
      unzipCmd, Tr.bind, Tr.pure, Tr.fail]

def envC8w : Env :=
  Env.mk (fun _ => ⟨0, "", ""⟩) (fun _ => none) (fun _ => none)
    [⟨"readme.txt", true⟩, ⟨"sub/x.shp", true⟩] (fun _ => false) false false

/-- Witness for the amended C8: a zip holding `readme.txt` and `sub/x.shp`
selects the `.shp` member (not the first file) and probes it. -/
theorem C8_witness :
    pyExt "u.zip" = ".zip"
    ∧ (envC8w.exec (unzipCmd "u.zip" (pathJoin "w" "unzipped"))).returncode = 0
    ∧ (envC8w.unzipEntries.filter
        (fun e => strEndsWith (pyName e.relPath) ".shp")).head?
        = some ⟨"sub/x.shp", true⟩
    ∧ ogrinfoCmd (pathJoin (pathJoin "w" "unzipped") "sub/x.shp")
        ∈ (ensure_pmtiles envC8w "u.zip" "n" "w").trace :=
  ⟨by decide, rfl, by decide,
    (C8_amended_member_selection envC8w "u.zip" "n" "w" (by decide) rfl).1
      ⟨"sub/x.shp", true⟩ (by decide)⟩

/-! ## C3: stage failure aborts the pipeline -/

/-- Inversion helper: a `RuntimeError` escaping `ensure_pmtiles` was produced
by the last traced command, which exited non-zero; the error carries that
command's captured streams; and no conversion stage appears twice in the
trace. -/
theorem ensure_runtimeError_inversion (env : Env) (up bn wk : String)
    (c : List String) (o e : String)
    (hres : (ensure_pmtiles env up bn wk).res = Except.error (.runtimeError c o e)) :
    (env.exec c).returncode ≠ 0
    ∧ o = (env.exec c).stdout ∧ e = (env.exec c).stderr
    ∧ (ensure_pmtiles env up bn wk).trace.getLast? = some c
    ∧ (stagesOf (ensure_pmtiles env up bn wk).trace).Nodup := by
  by_cases h1 : pyExt up = ".pmtiles"
  · simp [ensure_pmtiles, h1] at hres
  by_cases h2 : pyExt up = ".mbtiles"
  · by_cases hrc : (env.exec (pmtilesCmd up (pathJoin wk (safe_name bn ++ ".pmtiles")))).returncode = 0
    all_goals simp only [pmtilesCmd] at hrc
    · simp [ensure_pmtiles, h1, h2, mbtiles_to_pmtiles, run, hrc, Tr.pure, pmtilesCmd] at hres
    · simp [ensure_pmtiles, h1, h2, mbtiles_to_pmtiles, run, hrc, Tr.pure, pmtilesCmd] at hres
      obtain ⟨hc, ho2, he2⟩ := hres
      subst hc
      subst ho2
      subst he2
      refine ⟨hrc, rfl, rfl, ?_, ?_⟩ <;>
        simp [ensure_pmtiles, h1, h2, mbtiles_to_pmtiles, run, hrc, Tr.pure,
          pmtilesCmd, stagesOf, stageOf, ogrinfoCmd, List.filterMap_cons, List.nodup_cons]
  by_cases hz : pyExt up = ".zip"
  · by_cases hu : (env.exec (unzipCmd up (pathJoin wk "unzipped"))).returncode = 0
    all_goals simp only [unzipCmd] at hu
    · -- unzip succeeded: selection, then the generic three-stage chain
      have h3 : pyExt up ≠ ".geojson" := by rw [hz]; decide
      have h4 : pyExt up ≠ ".json" := by rw [hz]; decide
      rcases hsel : selectMember env with _ | rel
      · simp [ensure_pmtiles, h1, h2, hz, run, hu, hsel, unzipCmd, Tr.pure, Tr.fail] at hres
      · by_cases ho1 : (env.exec (ogr2ogrCmd (pathJoin wk "converted.geojson")
            (pathJoin (pathJoin wk "unzipped") rel))).returncode = 0
        all_goals simp only [ogr2ogrCmd] at ho1
        · by_cases ht : (env.exec (tippecanoeCmd (pathJoin wk "out.mbtiles") (safe_name bn)
              (pathJoin wk "converted.geojson"))).returncode = 0
          all_goals simp only [tippecanoeCmd] at ht
          · by_cases hp : (env.exec (pmtilesCmd (pathJoin wk "out.mbtiles")
                (pathJoin wk (safe_name bn ++ ".pmtiles")))).returncode = 0
            all_goals simp only [pmtilesCmd] at hp
            · simp [ensure_pmtiles, h1, h2, h3, h4, hz, run, hu, hsel, ho1, ht, hp,
                unzipCmd, ogrinfo_bounds, convert_to_geojson, ogr2ogrCmd,
                tippecanoe_to_mbtiles, tippecanoeCmd, mbtiles_to_pmtiles, pmtilesCmd,
                Tr.pure] at hres
            · simp [ensure_pmtiles, h1, h2, h3, h4, hz, run, hu, hsel, ho1, ht, hp,
                unzipCmd, ogrinfo_bounds, convert_to_geojson, ogr2ogrCmd,
                tippecanoe_to_mbtiles, tippecanoeCmd, mbtiles_to_pmtiles, pmtilesCmd,
                Tr.pure] at hres
              obtain ⟨hc, ho2, he2⟩ := hres
              subst hc
              subst ho2
              subst he2
              refine ⟨hp, rfl, rfl, ?_, ?_⟩ <;>
                simp [ensure_pmtiles, h1, h2, h3, h4, hz, run, hu, hsel, ho1, ht, hp,
                  unzipCmd, ogrinfo_bounds, convert_to_geojson, ogr2ogrCmd,
                  tippecanoe_to_mbtiles, tippecanoeCmd, mbtiles_to_pmtiles, pmtilesCmd,
                  Tr.pure, stagesOf, stageOf, ogrinfoCmd, List.filterMap_cons, List.nodup_cons]
          · simp [ensure_pmtiles, h1, h2, h3, h4, hz, run, hu, hsel, ho1, ht,
              unzipCmd, ogrinfo_bounds, convert_to_geojson, ogr2ogrCmd,
              tippecanoe_to_mbtiles, tippecanoeCmd, Tr.pure] at hres
            obtain ⟨hc, ho2, he2⟩ := hres
            subst hc
            subst ho2
            subst he2
            refine ⟨ht, rfl, rfl, ?_, ?_⟩ <;>
              simp [ensure_pmtiles, h1, h2, h3, h4, hz, run, hu, hsel, ho1, ht,
                unzipCmd, ogrinfo_bounds, convert_to_geojson, ogr2ogrCmd,
                tippecanoe_to_mbtiles, tippecanoeCmd, Tr.pure, stagesOf, stageOf, ogrinfoCmd, List.filterMap_cons, List.nodup_cons]
        · simp [ensure_pmtiles, h1, h2, h3, h4, hz, run, hu, hsel, ho1,
            unzipCmd, ogrinfo_bounds, convert_to_geojson, ogr2ogrCmd, Tr.pure] at hres
          obtain ⟨hc, ho2, he2⟩ := hres
          subst hc
          subst ho2
          subst he2
          refine ⟨ho1, rfl, rfl, ?_, ?_⟩ <;>
            simp [ensure_pmtiles, h1, h2, h3, h4, hz, run, hu, hsel, ho1,
              unzipCmd, ogrinfo_bounds, convert_to_geojson, ogr2ogrCmd, Tr.pure,
              stagesOf, stageOf, ogrinfoCmd, List.filterMap_cons, List.nodup_cons]
    · -- unzip itself failed
      simp [ensure_pmtiles, h1, h2, hz, run, hu, unzipCmd, Tr.pure] at hres
      obtain ⟨hc, ho2, he2⟩ := hres
      subst hc
      subst ho2
      subst he2
      refine ⟨hu, rfl, rfl, ?_, ?_⟩ <;>
        simp [ensure_pmtiles, h1, h2, hz, run, hu, unzipCmd, Tr.pure, stagesOf, stageOf, ogrinfoCmd, List.filterMap_cons, List.nodup_cons]
  · -- non-zip: geojson/json skip the generic stage, everything else runs it
    by_cases h3 : pyExt up = ".geojson" ∨ pyExt up = ".json"
    · by_cases ht : (env.exec (tippecanoeCmd (pathJoin wk "out.mbtiles") (safe_name bn)
          up)).returncode = 0
      all_goals simp only [tippecanoeCmd] at ht
      · by_cases hp : (env.exec (pmtilesCmd (pathJoin wk "out.mbtiles")
            (pathJoin wk (safe_name bn ++ ".pmtiles")))).returncode = 0
        all_goals simp only [pmtilesCmd] at hp
        · simp [ensure_pmtiles, h1, h2, hz, h3, run, ht, hp, ogrinfo_bounds,
            tippecanoe_to_mbtiles, tippecanoeCmd, mbtiles_to_pmtiles, pmtilesCmd,
            Tr.pure] at hres
        · simp [ensure_pmtiles, h1, h2, hz, h3, run, ht, hp, ogrinfo_bounds,
            tippecanoe_to_mbtiles, tippecanoeCmd, mbtiles_to_pmtiles, pmtilesCmd,
            Tr.pure] at hres
          obtain ⟨hc, ho2, he2⟩ := hres
          subst hc
          subst ho2
          subst he2
          refine ⟨hp, rfl, rfl, ?_, ?_⟩ <;>
            simp [ensure_pmtiles, h1, h2, hz, h3, run, ht, hp, ogrinfo_bounds,
              tippecanoe_to_mbtiles, tippecanoeCmd, mbtiles_to_pmtiles, pmtilesCmd,
              Tr.pure, stagesOf, stageOf, ogrinfoCmd, List.filterMap_cons, List.nodup_cons]
      · simp [ensure_pmtiles, h1, h2, hz, h3, run, ht, ogrinfo_bounds,
          tippecanoe_to_mbtiles, tippecanoeCmd, Tr.pure] at hres
        obtain ⟨hc, ho2, he2⟩ := hres
        subst hc
        subst ho2
        subst he2
        refine ⟨ht, rfl, rfl, ?_, ?_⟩ <;>
          simp [ensure_pmtiles, h1, h2, hz, h3, run, ht, ogrinfo_bounds,
            tippecanoe_to_mbtiles, tippecanoeCmd, Tr.pure, stagesOf, stageOf, ogrinfoCmd, List.filterMap_cons, List.nodup_cons]
    · by_cases ho1 : (env.exec (ogr2ogrCmd (pathJoin wk "converted.geojson")
          up)).returncode = 0
      all_goals simp only [ogr2ogrCmd] at ho1
      · by_cases ht : (env.exec (tippecanoeCmd (pathJoin wk "out.mbtiles") (safe_name bn)
            (pathJoin wk "converted.geojson"))).returncode = 0
        all_goals simp only [tippecanoeCmd] at ht
        · by_cases hp : (env.exec (pmtilesCmd (pathJoin wk "out.mbtiles")
              (pathJoin wk (safe_name bn ++ ".pmtiles")))).returncode = 0
          all_goals simp only [pmtilesCmd] at hp
          · simp [ensure_pmtiles, h1, h2, hz, h3, run, ho1, ht, hp, ogrinfo_bounds,
              convert_to_geojson, ogr2ogrCmd, tippecanoe_to_mbtiles, tippecanoeCmd,
              mbtiles_to_pmtiles, pmtilesCmd, Tr.pure] at hres
          · simp [ensure_pmtiles, h1, h2, hz, h3, run, ho1, ht, hp, ogrinfo_bounds,
              convert_to_geojson, ogr2ogrCmd, tippecanoe_to_mbtiles, tippecanoeCmd,
              mbtiles_to_pmtiles, pmtilesCmd, Tr.pure] at hres
            obtain ⟨hc, ho2, he2⟩ := hres
            subst hc
            subst ho2
            subst he2
            refine ⟨hp, rfl, rfl, ?_, ?_⟩ <;>
              simp [ensure_pmtiles, h1, h2, hz, h3, run, ho1, ht, hp, ogrinfo_bounds,
                convert_to_geojson, ogr2ogrCmd, tippecanoe_to_mbtiles, tippecanoeCmd,
                mbtiles_to_pmtiles, pmtilesCmd, Tr.pure, stagesOf, stageOf, ogrinfoCmd, List.filterMap_cons, List.nodup_cons]
        · simp [ensure_pmtiles, h1, h2, hz, h3, run, ho1, ht, ogrinfo_bounds,
            convert_to_geojson, ogr2ogrCmd, tippecanoe_to_mbtiles, tippecanoeCmd,
            Tr.pure] at hres
          obtain ⟨hc, ho2, he2⟩ := hres
          subst hc
          subst ho2
          subst he2
          refine ⟨ht, rfl, rfl, ?_, ?_⟩ <;>
            simp [ensure_pmtiles, h1, h2, hz, h3, run, ho1, ht, ogrinfo_bounds,
              convert_to_geojson, ogr2ogrCmd, tippecanoe_to_mbtiles, tippecanoeCmd,
              Tr.pure, stagesOf, stageOf, ogrinfoCmd, List.filterMap_cons, List.nodup_cons]
      · simp [ensure_pmtiles, h1, h2, hz, h3, run, ho1, ogrinfo_bounds,
          convert_to_geojson, ogr2ogrCmd, Tr.pure] at hres
        obtain ⟨hc, ho2, he2⟩ := hres
        subst hc
        subst ho2
        subst he2
        refine ⟨ho1, rfl, rfl, ?_, ?_⟩ <;>
          simp [ensure_pmtiles, h1, h2, hz, h3, run, ho1, ogrinfo_bounds,
            convert_to_geojson, ogr2ogrCmd, Tr.pure, stagesOf, stageOf, ogrinfoCmd, List.filterMap_cons, List.nodup_cons]

/-- C3: whenever a conversion stage exits non-zero the pipeline aborts at
that command — it is the last command of the trace, nothing is re-attempted
(no stage appears twice), the raised error carries the failing command's
argument list and both captured streams — and the driver surfaces it as a
client-facing 400 with no catalog insert for the run. -/
theorem C3_stage_failure_aborts_with_client_error :
    (∀ (env : Env) (up bn wk : String) (c : List String) (o e : String),
      (ensure_pmtiles env up bn wk).res = Except.error (.runtimeError c o e) →
        (env.exec c).returncode ≠ 0
        ∧ o = (env.exec c).stdout ∧ e = (env.exec c).stderr
        ∧ (ensure_pmtiles env up bn wk).trace.getLast? = some c
        ∧ (stagesOf (ensure_pmtiles env up bn wk).trace).Nodup)
    ∧ (∀ (env : Env) (workdir bundle_id name description filename : String)
        (c : List String) (o e : String),
      (ensure_pmtiles env (pathJoin (pathJoin workdir bundle_id) (safe_name filename))
          (if pyStripStr name = "" then "bundle" else pyStripStr name)
          (pathJoin workdir bundle_id)).res = Except.error (.runtimeError c o e) →
      env.s3PutFails ("sources/" ++ bundle_id ++ "/" ++ safe_name filename) = false →
      (create_bundle env workdir bundle_id name description filename).1
          = HttpResult.clientError 400 (.runtimeError c o e)
      ∧ Action.dbInsert bundle_id
          ∉ (create_bundle env workdir bundle_id name description filename).2) := by
  refine ⟨ensure_runtimeError_inversion, ?_⟩
  intro env workdir bundle_id name description filename c o e hres hs3
  constructor
  · simp [create_bundle, tryBody, hs3, hres]
  · simp [create_bundle, tryBody, hs3, hres, List.mem_append, List.mem_map]

def envC3 : Env :=
  Env.mk (fun cm => if cm.head? = some "tippecanoe" then ⟨1, "o", "e"⟩ else ⟨0, "", ""⟩)
    (fun _ => none) (fun _ => none) [] (fun _ => false) false false

/-- Witness for C3: a failing tippecanoe on a geojson upload yields a 400
carrying that command and its streams, and no catalog insert happens. -/
theorem C3_witness :
    (ensure_pmtiles envC3 (pathJoin (pathJoin "wd" "b") (safe_name "f.geojson"))
        (if pyStripStr "n" = "" then "bundle" else pyStripStr "n")
        (pathJoin "wd" "b")).res
      = Except.error (.runtimeError
          (tippecanoeCmd (pathJoin (pathJoin "wd" "b") "out.mbtiles") "n"
            (pathJoin (pathJoin "wd" "b") (safe_name "f.geojson"))) "o" "e")
    ∧ envC3.s3PutFails ("sources/" ++ "b" ++ "/" ++ safe_name "f.geojson") = false
    ∧ (create_bundle envC3 "wd" "b" "n" "" "f.geojson").1
      = HttpResult.clientError 400 (.runtimeError
          (tippecanoeCmd (pathJoin (pathJoin "wd" "b") "out.mbtiles") "n"
            (pathJoin (pathJoin "wd" "b") (safe_name "f.geojson"))) "o" "e")
    ∧ Action.dbInsert "b" ∉ (create_bundle envC3 "wd" "b" "n" "" "f.geojson").2 :=
  ⟨rfl, rfl,
    (C3_stage_failure_aborts_with_client_error.2 envC3 "wd" "b" "n" "" "f.geojson"
      (tippecanoeCmd (pathJoin (pathJoin "wd" "b") "out.mbtiles") "n"
        (pathJoin (pathJoin "wd" "b") (safe_name "f.geojson"))) "o" "e" rfl rfl).1,
    (C3_stage_failure_aborts_with_client_error.2 envC3 "wd" "b" "n" "" "f.geojson"
      (tippecanoeCmd (pathJoin (pathJoin "wd" "b") "out.mbtiles") "n"
        (pathJoin (pathJoin "wd" "b") (safe_name "f.geojson"))) "o" "e" rfl rfl).2⟩

/-! ## C6: the working scope is removed exactly once on every exit path -/

theorem rmtree_not_in_tryBody (env : Env)
    (work up sk bid bn desc d : String) :
    Action.rmtree d ∉ (tryBody env work up sk bid bn desc).2 := by
  by_cases h1 : env.s3PutFails sk
  · simp [tryBody, h1]
  · rcases hr : (ensure_pmtiles env up bn work).res with e | v
    · simp [tryBody, h1, hr]
    · obtain ⟨pm, bounds⟩ := v
      by_cases h2 : env.s3PutFails ("pmtiles/" ++ bid ++ "/" ++ safe_name bn ++ ".pmtiles")
      · simp [tryBody, h1, hr, h2]
      · by_cases h3 : env.dbInsertFails <;> simp [tryBody, h1, hr, h2, h3]

set_option maxHeartbeats 1000000 in
/-- C6: on every exit path — success, client failure, or unexpected
collaborator failure — the scoped working directory is removed exactly once,
as the final action of the request; and the outcome of the request is
independent of whether that removal itself fails (`ignore_errors=True`). -/
theorem C6_cleanup_exactly_once (env : Env)
    (workdir bundle_id name description filename : String) :
    (create_bundle env workdir bundle_id name description filename).2.count
        (Action.rmtree (pathJoin workdir bundle_id)) = 1
    ∧ (create_bundle env workdir bundle_id name description filename).2.getLast?
        = some (Action.rmtree (pathJoin workdir bundle_id))
    ∧ ∀ b : Bool,
        create_bundle (setRmtree env b) workdir bundle_id name description filename
          = create_bundle env workdir bundle_id name description filename := by
  refine ⟨?_, ?_, fun b => ?_⟩
  case refine_3 =>
    rcases env with ⟨f1, f2, f3, f4, f5, f6, f7⟩
    rfl
  · have hni := rmtree_not_in_tryBody env (pathJoin workdir bundle_id)
      (pathJoin (pathJoin workdir bundle_id) (safe_name filename))
      ("sources/" ++ bundle_id ++ "/" ++ safe_name filename) bundle_id
      (if pyStripStr name = "" then "bundle" else pyStripStr name) description
      (pathJoin workdir bundle_id)
    simp [create_bundle, List.count_append, List.count_eq_zero.mpr hni]
  · simp [create_bundle]

/-! ## C10: conversion output stays inside the working scope -/

theorem run_trace (env : Env) (cmd : List String) : (run env cmd).trace = [cmd] := by
  by_cases h : (env.exec cmd).returncode = 0 <;> simp [run, h]

theorem allCmds_bind {α β : Type} {P : List String → Prop} {x : Tr α} {f : α → Tr β}
    (hx : ∀ c ∈ x.trace, P c) (hf : ∀ a, ∀ c ∈ (f a).trace, P c) :
    ∀ c ∈ (Tr.bind x f).trace, P c := by
  rcases x with ⟨r, t⟩
  cases r with
  | error e => exact hx
  | ok a =>
    intro c hc
    rcases List.mem_append.mp hc with h | h
    · exact hx c h
    · exact hf a c h

theorem allCmds_run {P : List String → Prop} (env : Env) (cmd : List String)
    (h : P cmd) : ∀ c ∈ (run env cmd).trace, P c := by
  intro c hc
  rw [run_trace] at hc
  simp at hc
  subst hc
  exact h

theorem allowed_ne_slash {c : Char} (h : isAllowedChar c = true) : c ≠ '/' := by
  intro he
  subst he
  exact absurd h (by decide)

theorem safe_name_data_allowed (s : String) :
    ∀ c ∈ (safe_name s).data, isAllowedChar c = true := by
  by_cases h : safe_clean s = []
  · rw [safe_name, if_pos h]
    decide
  · rw [safe_name, if_neg h]
    intro c hc
    exact mem_safe_clean_allowed (List.take_subset _ _ hc)

theorem pm_name_ne_slash (nm : String) :
    ∀ ch ∈ (safe_name nm ++ ".pmtiles").data, ch ≠ '/' := by
  intro ch hch
  rw [String.data_append] at hch
  rcases List.mem_append.mp hch with h | h
  · exact allowed_ne_slash (safe_name_data_allowed nm ch h)
  · have h8 : ch ∈ ['.', 'p', 'm', 't', 'i', 'l', 'e', 's'] := h
    fin_cases h8 <;> decide

/-- C10: every output location handed to an external command is directly
inside the supplied working directory, and the archive path returned on
success is either exactly the upload path (pass-through) or a file directly
inside the working directory — so once the driver's unconditional cleanup
removes the scope, the returned path names nothing that still exists unless
the caller copied it out first. -/
theorem C10_outputs_confined_to_work (env : Env) (up nm wk : String) :
    (∀ c ∈ (ensure_pmtiles env up nm wk).trace, ∀ o, declaredOutput c = some o →
      ∃ n, o = pathJoin wk n ∧ ∀ ch ∈ n.data, ch ≠ '/')
    ∧ ∀ p b, (ensure_pmtiles env up nm wk).res = Except.ok (p, b) →
      p = up ∨ ∃ n, p = pathJoin wk n ∧ ∀ ch ∈ n.data, ch ≠ '/' := by
  have hunz : ∀ ch ∈ "unzipped".data, ch ≠ '/' := by decide
  have hconv : ∀ ch ∈ "converted.geojson".data, ch ≠ '/' := by decide
  have hout : ∀ ch ∈ "out.mbtiles".data, ch ≠ '/' := by decide
  constructor
  · by_cases h1 : pyExt up = ".pmtiles"
    · rw [ensure_pmtiles, if_pos h1]
      intro c hc
      simp at hc
    · by_cases h2 : pyExt up = ".mbtiles"
      · rw [ensure_pmtiles, if_neg h1, if_pos h2]
        refine allCmds_bind (allCmds_bind (allCmds_run env _ ?_) ?_) ?_
        · intro o ho
          simp [declaredOutput, pmtilesCmd] at ho
          exact ⟨safe_name nm ++ ".pmtiles", ho.symm, pm_name_ne_slash nm⟩
        · intro a c hc
          simp [Tr.pure] at hc
        · intro a c hc
          simp [Tr.pure] at hc
      · rw [ensure_pmtiles, if_neg h1, if_neg h2]
        refine allCmds_bind ?_ ?_
        · by_cases hz : pyExt up = ".zip"
          · rw [if_pos hz]
            refine allCmds_bind (allCmds_run env _ ?_) ?_
            · intro o ho
              simp [declaredOutput, unzipCmd] at ho
              exact ⟨"unzipped", ho.symm, hunz⟩
            · intro a c hc
              cases hsel : selectMember env with
              | none =>
                rw [hsel] at hc
                simp [Tr.fail] at hc
              | some rel =>
                rw [hsel] at hc
                simp [Tr.pure] at hc
          · rw [if_neg hz]
            intro c hc
            simp [Tr.pure] at hc
        · intro src
          refine allCmds_bind ?_ ?_
          · intro c hc
            simp [ogrinfo_bounds] at hc
            subst hc
            intro o ho
            simp [declaredOutput, ogrinfoCmd] at ho
          · intro bounds
            refine allCmds_bind ?_ ?_
            · by_cases hg : pyExt up = ".geojson" ∨ pyExt up = ".json"
              · rw [if_pos hg]
                intro c hc
                simp [Tr.pure] at hc
              · rw [if_neg hg]
                refine allCmds_bind (allCmds_bind (allCmds_run env _ ?_) ?_) ?_
                · intro o ho
                  simp [declaredOutput, ogr2ogrCmd] at ho
                  exact ⟨"converted.geojson", ho.symm, hconv⟩
                · intro a c hc
                  simp [Tr.pure] at hc
                · intro a c hc
                  simp [Tr.pure] at hc
            · intro geojson
              refine allCmds_bind (allCmds_bind (allCmds_run env _ ?_) ?_) ?_
              · intro o ho
                simp [declaredOutput, tippecanoeCmd] at ho
                exact ⟨"out.mbtiles", ho.symm, hout⟩
              · intro a c hc
                simp [Tr.pure] at hc
              · intro a
                refine allCmds_bind (allCmds_bind (allCmds_run env _ ?_) ?_) ?_
                · intro o ho
                  simp [declaredOutput, pmtilesCmd] at ho
                  exact ⟨safe_name nm ++ ".pmtiles", ho.symm, pm_name_ne_slash nm⟩
                · intro a2 c hc
                  simp [Tr.pure] at hc
                · intro a2 c hc
                  simp [Tr.pure] at hc
  · intro p b hres
    by_cases h1 : pyExt up = ".pmtiles"
    · rw [ensure_pmtiles, if_pos h1] at hres
      simp at hres
      exact Or.inl hres.1.symm
    · by_cases h2 : pyExt up = ".mbtiles"
      · rw [ensure_pmtiles, if_neg h1, if_pos h2] at hres
        rcases Tr.bind_res_ok hres with ⟨a, _, h3⟩
        simp [Tr.pure] at h3
        exact Or.inr ⟨safe_name nm ++ ".pmtiles", h3.1.symm, pm_name_ne_slash nm⟩
      · rw [ensure_pmtiles, if_neg h1, if_neg h2] at hres
        rcases Tr.bind_res_ok hres with ⟨src, _, h3⟩
        rcases Tr.bind_res_ok h3 with ⟨bounds, _, h4⟩
        rcases Tr.bind_res_ok h4 with ⟨geojson, _, h5⟩
        rcases Tr.bind_res_ok h5 with ⟨u1, _, h6⟩
        rcases Tr.bind_res_ok h6 with ⟨u2, _, h7⟩
        simp [Tr.pure] at h7
        exact Or.inr ⟨safe_name nm ++ ".pmtiles", h7.1.symm, pm_name_ne_slash nm⟩

def envC10 : Env :=
  Env.mk (fun _ => ⟨0, "", ""⟩) (fun _ => none) (fun _ => none) []
    (fun _ => false) false false

/-- Witness for C10: a geojson run returns an archive directly inside the
working directory. -/
theorem C10_witness :
    (ensure_pmtiles envC10 "a.geojson" "n" "w").res
      = Except.ok (pathJoin "w" "n.pmtiles", none)
    ∧ (pathJoin "w" "n.pmtiles" = "a.geojson"
       ∨ ∃ n, pathJoin "w" "n.pmtiles" = pathJoin "w" n ∧ ∀ ch ∈ n.data, ch ≠ '/') :=
  ⟨rfl,
    (C10_outputs_confined_to_work envC10 "a.geojson" "n" "w").2
      (pathJoin "w" "n.pmtiles") none rfl⟩

def envC5 : Env :=
  Env.mk (fun _ => ⟨0, "", ""⟩) (fun _ => none) (fun _ => none) []
    (fun _ => false) false false

/-- Witness for C5: a generic-route upload is probed against the raw upload
itself. -/
theorem C5_witness :
    pyExt "d.csv" ≠ ".pmtiles" ∧ pyExt "d.csv" ≠ ".mbtiles" ∧ pyExt "d.csv" ≠ ".zip"
    ∧ ogrinfoCmd "d.csv" ∈ (ensure_pmtiles envC5 "d.csv" "n" "w").trace :=
  ⟨by decide, by decide, by decide,
    ((C5_bounds_attempted_exactly_for_ogr_routes envC5 "d.csv" "n" "w").2.2.1
      (by decide) (by decide) (by decide)).1⟩

end App
